import Mathlib

/- Verification development for the mackerel-agent `command` package
   (command/command.go): the post-queue scheduler loop, the checker loop,
   the startup host-registration retry policy, the metric ingestion filter,
   and the deterministic per-host delay assignment. -/

namespace MackerelAgent

/-! ## Bytes and SHA-1 (crypto/sha1), used by delayByHost.
    All word arithmetic is over `Nat` reduced modulo `2^32`. -/

def w32 : Nat := 4294967296

/-- Rotate a 32-bit word (given as a `Nat < 2^32`) left by `s` bits. -/
def rotl (s x : Nat) : Nat := ((x <<< s) + (x >>> (32 - s))) % w32

def sha1f (i b c d : Nat) : Nat :=
  if i < 20 then (b &&& c) ||| ((b ^^^ 4294967295) &&& d)
  else if i < 40 then b ^^^ c ^^^ d
  else if i < 60 then (b &&& c) ||| (b &&& d) ||| (c &&& d)
  else b ^^^ c ^^^ d

def sha1k (i : Nat) : Nat :=
  if i < 20 then 1518500249
  else if i < 40 then 1859775393
  else if i < 60 then 2400959708
  else 3395469782

/-- Big-endian byte decomposition of `v` into `n` bytes. -/
def toBytesBE (n v : Nat) : List Nat :=
  (List.range n).map (fun i => (v >>> (8 * (n - 1 - i))) % 256)

/-- SHA-1 message padding: 0x80, zeros to 56 mod 64, 64-bit big-endian bit length. -/
def sha1pad (msg : List Nat) : List Nat :=
  msg ++ [128] ++ List.replicate ((119 - msg.length % 64) % 64) 0 ++
    toBytesBE 8 (8 * msg.length)

/-- Group a byte list into big-endian 32-bit words. -/
def bytesToWords : List Nat → List Nat
  | a :: b :: c :: d :: rest => (((a * 256 + b) * 256 + c) * 256 + d) :: bytesToWords rest
  | _ => []

/-- Message-schedule extension, keeping the produced words in reverse order
    (head is the most recent word) so the four taps are simple list lookups. -/
def sha1extendAux : Nat → List Nat → List Nat
  | 0, rev => rev
  | n + 1, rev =>
    let v := rotl 1 (rev.getD 2 0 ^^^ rev.getD 7 0 ^^^ rev.getD 13 0 ^^^ rev.getD 15 0)
    sha1extendAux n (v :: rev)

/-- The 80-word message schedule of one chunk. -/
def sha1schedule (ws : List Nat) : List Nat :=
  (sha1extendAux 64 ws.reverse).reverse

def sha1round : Nat × Nat × Nat × Nat × Nat → Nat × Nat → Nat × Nat × Nat × Nat × Nat
  | (a, b, c, d, e), (i, w) =>
    ((rotl 5 a + sha1f i b c d + e + sha1k i + w) % w32, a, rotl 30 b, c, d)

def sha1chunk (h : Nat × Nat × Nat × Nat × Nat) (chunk : List Nat) :
    Nat × Nat × Nat × Nat × Nat :=
  let ws := sha1schedule (bytesToWords chunk)
  let (h0, h1, h2, h3, h4) := h
  let (a, b, c, d, e) := ((List.range 80).zip ws).foldl sha1round h
  ((h0 + a) % w32, (h1 + b) % w32, (h2 + c) % w32, (h3 + d) % w32, (h4 + e) % w32)

/-- Split into 64-byte chunks; the fuel argument keeps the recursion structural
    (any fuel of at least the number of chunks gives the same result). -/
def chunks64Go : Nat → List Nat → List (List Nat)
  | 0, _ => []
  | _, [] => []
  | fuel + 1, l => l.take 64 :: chunks64Go fuel (l.drop 64)

/-- SHA-1 of a byte list, as the 20-byte digest (crypto/sha1's `Sum`). -/
def sha1Sum (msg : List Nat) : List Nat :=
  let (h0, h1, h2, h3, h4) :=
    (chunks64Go (msg.length + 1) (sha1pad msg)).foldl sha1chunk
      (1732584193, 4023233417, 2562383102, 271733878, 3285377520)
  toBytesBE 4 h0 ++ toBytesBE 4 h1 ++ toBytesBE 4 h2 ++ toBytesBE 4 h3 ++ toBytesBE 4 h4

/-- UTF-8 bytes of a string, as Go's `[]byte(s)` conversion produces. -/
def utf8Bytes (s : String) : List Nat :=
  (s.data.map (fun c =>
    let n := c.toNat
    if n < 128 then [n]
    else if n < 2048 then [192 + n / 64, 128 + n % 64]
    else if n < 65536 then [224 + n / 4096, 128 + n / 64 % 64, 128 + n % 64]
    else [240 + n / 262144, 128 + n / 4096 % 64, 128 + n / 64 % 64, 128 + n % 64])).flatten

/-! ## Hosts and delay assignment -/

/-- The fields of `mackerel.Host` the command package reads. -/
structure Host where
  id : String
  name : String
  status : String
  deriving DecidableEq, Repr

/-- Modelled from the spec: the base post interval (`config.PostMetricsInterval`,
    defined in the config package, which is outside the embedded sources) is a
    fixed 60 seconds ("The sleep second is up to 60s"). -/
def PostMetricsIntervalSeconds : Nat := 60

/-- `delayByHost` (command.go): last byte of the SHA-1 digest of the host ID,
    reduced modulo the base post interval in seconds. -/
def delayByHost (host : Host) : Nat :=
  (sha1Sum (utf8Bytes host.id)).getLastD 0 % PostMetricsIntervalSeconds

/-! ## Metric values and post batches -/

/-- A Go `float64` value, classified the way `math.IsNaN` / `math.IsInf` see it.
    Finite values carry a rational payload; no floating arithmetic is needed here. -/
inductive GoFloat where
  | nan
  | inf (neg : Bool)
  | finite (q : ℚ)
  deriving DecidableEq, Repr

def GoFloat.isNaN : GoFloat → Bool
  | .nan => true
  | _ => false

/-- `math.IsInf(v, 0)`: infinite of either sign. -/
def GoFloat.isInf : GoFloat → Bool
  | .inf _ => true
  | _ => false

/-- `mackerel.CreatingMetricsValue`: one metric sample as posted to the API. -/
structure CreatingMetricsValue where
  hostID : String
  name : String
  time : Nat
  value : GoFloat
  deriving DecidableEq, Repr

/-- `postValue` (command.go): a batch of samples plus its retry counter. -/
structure postValue where
  values : List CreatingMetricsValue
  retryCnt : Nat
  deriving DecidableEq, Repr

/-- `newPostValue` (command.go): fresh batch, retryCnt = 0. -/
def newPostValue (values : List CreatingMetricsValue) : postValue :=
  ⟨values, 0⟩

/-! ## Metric ingestion (enqueueLoop body) -/

/-- One generator's values inside an `agent.MetricsResult`: an optional custom
    identifier and the name-to-value map (as an association list). -/
structure MetricValues where
  customIdentifier : Option String
  values : List (String × GoFloat)
  deriving Repr

/-- `agent.MetricsResult`: a snapshot creation time plus the generators' values. -/
structure MetricsResult where
  created : Nat
  values : List MetricValues
  deriving Repr

/-- Host-ID resolution in enqueueLoop: primary host unless the sample declares a
    custom identifier, which must be resolvable in the pre-resolved map
    (association list); unresolved custom identifiers drop the whole group. -/
def resolveHostID (primaryID : String) (customIdentifierHosts : List (String × Host)) :
    Option String → Option String
  | none => some primaryID
  | some ci =>
    match customIdentifierHosts.lookup ci with
    | some host => some host.id
    | none => none

/-- The body of `enqueueLoop` for one `MetricsResult`: resolve each group's host,
    drop NaN/infinite values, and flatten into the batch's sample list. -/
def buildCreatingValues (primaryID : String) (customIdentifierHosts : List (String × Host))
    (result : MetricsResult) : List CreatingMetricsValue :=
  (result.values.map (fun mv =>
    match resolveHostID primaryID customIdentifierHosts mv.customIdentifier with
    | none => []
    | some hostID =>
      (mv.values.filter (fun nv => !nv.2.isNaN && !nv.2.isInf)).map
        (fun nv => CreatingMetricsValue.mk hostID nv.1 result.created nv.2))).flatten

/-! ## The scheduler loop (loop in command.go) -/

/-- `loopState` (command.go). -/
inductive loopState where
  | first
  | default
  | queued
  | hadError
  | terminating
  deriving DecidableEq, Repr

/-- The `config.Config.Connection` values the loop reads. -/
structure ConnectionConfig where
  postMetricsDequeueDelaySeconds : Nat
  postMetricsRetryDelaySeconds : Nat
  postMetricsRetryMax : Nat
  postMetricsBufferSize : Nat
  deriving Repr

/-- The error message of the forced return on a second termination signal. -/
def forcedReturnMsg : String := "received terminate instruction again. force return"

/-- The `delaySeconds` switch of the loop: delay before posting, depending on the
    state at the start of the cycle.  `postDelaySeconds` is `delayByHost` of the
    running host, `now` is `time.Now().Unix()`. -/
def stateDelay (cfg : ConnectionConfig) (postDelaySeconds now : Nat) : loopState → Nat
  | .first => 0
  | .queued => cfg.postMetricsDequeueDelaySeconds
  | .hadError => cfg.postMetricsRetryDelaySeconds
  | .terminating => 1
  | .default =>
    let elapsedSeconds := now % PostMetricsIntervalSeconds
    if postDelaySeconds > elapsedSeconds then postDelaySeconds - elapsedSeconds else 0

/-- Dequeue one batch, and one more iff the queue is still non-empty
    (the bulk-posting merge at the top of the cycle). -/
def dequeueUpToTwo : List postValue → List postValue × List postValue
  | [] => ([], [])
  | [v] => ([v], [])
  | v :: w :: rest => ([v, w], rest)

/-- The next-state decision taken before sleeping: `Queued` iff the queue already
    has backlog, unless the loop is terminating. -/
def decideNextState (st : loopState) (queue : List postValue) : loopState :=
  if st = .terminating then st
  else if 0 < queue.length then .queued else .default

/-- Increment a batch's retry counter (the `v.retryCnt++` in the requeue goroutine). -/
def bumpRetry (v : postValue) : postValue :=
  ⟨v.values, v.retryCnt + 1⟩

/-- The failure-handling goroutine body: bump every merged batch's counter once;
    abandon it if the counter now exceeds `PostMetricsRetryMax`, else requeue it.
    Returns (requeued, abandoned), each in processing order. -/
def requeueOrAbandon (retryMax : Nat) : List postValue → List postValue × List postValue
  | [] => ([], [])
  | v :: rest =>
    let v := bumpRetry v
    let (rq, ab) := requeueOrAbandon retryMax rest
    if v.retryCnt > retryMax then (rq, v :: ab) else (v :: rq, ab)

/-- The input deciding one iteration of the loop's `select`: either the
    termination channel fires, or a batch is received (with the outcomes of the
    in-cycle sleep `select` and of the post call). -/
inductive CycleEvent where
  | term
  | batch (termDuringSleep : Bool) (now : Nat) (postOk : Bool)
  deriving Repr

/-- How one iteration ended: `ret err` leaves the loop (`none` = normal `nil`
    return), `cont st queue` continues with the new state and queue. -/
inductive StepOut where
  | ret (err : Option String)
  | cont (st : loopState) (queue : List postValue)
  deriving DecidableEq, Repr

/-- What one iteration did: the computed pre-send delay, the samples handed to
    `PostMetricsValues` (empty if no post happened), the abandoned batches, and
    how the iteration ended. -/
structure StepResult where
  delay : Nat
  posted : List CreatingMetricsValue
  abandoned : List postValue
  out : StepOut
  deriving Repr

/-- The queue carried into the next iteration (empty when the loop returned). -/
def StepOut.queueOf : StepOut → List postValue
  | .ret _ => []
  | .cont _ q => q

/-- One iteration of the scheduler loop body (the `for { select { ... } }` in
    `loop`), with the queue modelled as a list (head = oldest).  A `.batch` event
    with an empty queue cannot occur in the program (the channel receive only
    fires when a value is present) and is modelled as a no-op. -/
def loopStep (cfg : ConnectionConfig) (postDelaySeconds : Nat) (st : loopState)
    (queue : List postValue) : CycleEvent → StepResult
  | .term =>
    if st = .terminating then ⟨0, [], [], .ret (some forcedReturnMsg)⟩
    else if queue.length ≤ 0 then ⟨0, [], [], .ret none⟩
    else ⟨0, [], [], .cont .terminating queue⟩
  | .batch termDuringSleep now postOk =>
    match queue with
    | [] => ⟨0, [], [], .cont st []⟩
    | v :: rest =>
      let origPostValues := (dequeueUpToTwo (v :: rest)).1
      let queue1 := (dequeueUpToTwo (v :: rest)).2
      let delaySeconds := stateDelay cfg postDelaySeconds now st
      let st1 := decideNextState st queue1
      if termDuringSleep ∧ st1 = .terminating then
        ⟨delaySeconds, [], [], .ret (some forcedReturnMsg)⟩
      else
        let st2 := if termDuringSleep then loopState.terminating else st1
        let postValues := origPostValues.foldl (fun acc v => acc ++ v.values) []
        if postOk then
          if st2 = .terminating ∧ queue1.length ≤ 0 then
            ⟨delaySeconds, postValues, [], .ret none⟩
          else
            ⟨delaySeconds, postValues, [], .cont st2 queue1⟩
        else
          let st3 := if st2 ≠ .terminating then loopState.hadError else st2
          ⟨delaySeconds, postValues,
            (requeueOrAbandon cfg.postMetricsRetryMax origPostValues).2,
            .cont st3 (queue1 ++ (requeueOrAbandon cfg.postMetricsRetryMax origPostValues).1)⟩

/-! ## The initial wait before the first posting cycle -/

/-- How the pre-loop initial wait ends: the termination signal makes `loop`
    return `nil` immediately; otherwise the wait elapses and the plugin
    generators are initialised before entering the cycle loop. -/
inductive InitOutcome where
  | exitNil
  | proceedInit
  deriving DecidableEq, Repr

/-- `initialDelay` in `loop`: half (integer division) of the host's desync delay. -/
def initialDelay (host : Host) : Nat :=
  delayByHost host / 2

/-- The initial `select` in `loop`: return `nil` on termination, else proceed to
    `InitPluginGenerators` after `initialDelay` seconds. -/
def loopInitialWait (termDuringWait : Bool) : InitOutcome :=
  if termDuringWait then .exitNil else .proceedInit

/-! ## The checker loop body (runCheckersLoop) -/

/-- `checks.Status`. -/
inductive CheckStatus where
  | ok
  | warning
  | critical
  | unknown
  | undefined
  deriving DecidableEq, Repr

/-- `checks.Report`: the fields the checker loop reads. -/
structure CheckReport where
  checkName : String
  status : CheckStatus
  message : String
  deriving DecidableEq, Repr

/-- What one successful checker invocation did: whether the report was forwarded
    to the aggregator channel, whether the immediate-escalation channel was
    signalled, and the remembered state afterwards. -/
structure CheckerOutcome where
  forwarded : Bool
  immediate : Bool
  lastStatus : CheckStatus
  lastMessage : String
  deriving DecidableEq, Repr

/-- The body of one successful checker invocation (runCheckersLoop): suppress the
    report if it is OK and unchanged; otherwise forward it, signalling immediate
    escalation on a status change except for Undefined to OK. -/
def checkerStep (lastStatus : CheckStatus) (lastMessage : String) (report : CheckReport) :
    CheckerOutcome :=
  if report.status = .ok ∧ report.status = lastStatus ∧ report.message = lastMessage then
    ⟨false, false, lastStatus, lastMessage⟩
  else
    let immediate :=
      report.status ≠ lastStatus ∧ ¬(report.status = .ok ∧ lastStatus = .undefined)
    ⟨true, decide immediate, report.status, report.message⟩

/-! ## Startup host-registration retry policy (prepareHost) -/

/-- `mackerel.Error`, split by `IsClientError`. -/
inductive ApiError where
  | client (msg : String)
  | server (msg : String)
  deriving DecidableEq, Repr

def ApiError.isClientError : ApiError → Bool
  | .client _ => true
  | .server _ => false

/-- `filterErrorForRetry` (command.go): report a client error as `nil` so the
    retry wrapper stops retrying; pass every other error through. -/
def filterErrorForRetry : Option ApiError → Option ApiError
  | none => none
  | some err => if err.isClientError then none else some err

/-- `retryNum` (command.go): fixed attempt count of the startup retry policy. -/
def retryNum : Nat := 20

/-- `retryIntervalSeconds` (command.go): the fixed spacing between attempts. -/
def retryIntervalSeconds : Nat := 3

/-- Modelled from the spec: the bounded retry combinator (the external
    Songmu/retry library) calls the wrapped function up to `fuel` times with
    fixed spacing and stops as soon as it returns `nil`.  Here the wrapped
    function is the api call followed by `filterErrorForRetry`; the oracle gives
    each attempt's outcome, and the accumulator `(attempts, lastErr, result)`
    mirrors the Go closure's captured variables.  Returns the attempts made, the
    captured `lastErr`, and the captured result. -/
def doRetryFrom (oracle : Nat → Except ApiError Host) :
    Nat → Nat → Option ApiError → Option Host → Nat × Option ApiError × Option Host
  | 0, attempts, lastErr, result => (attempts, lastErr, result)
  | fuel + 1, attempts, _, _ =>
    match oracle attempts with
    | .ok h => (attempts + 1, none, some h)
    | .error e =>
      match filterErrorForRetry (some e) with
      | none => (attempts + 1, some e, none)
      | some _ => doRetryFrom oracle fuel (attempts + 1) (some e) none

/-- `doRetry` applied to one api call: `retry.Retry(retryNum, retryInterval, f)`. -/
def doRetry (oracle : Nat → Except ApiError Host) : Nat × Option ApiError × Option Host :=
  doRetryFrom oracle retryNum 0 none none

/-- The text of a `mackerel.Error`. -/
def ApiError.msg : ApiError → String
  | .client m => m
  | .server m => m

/-- The `FindHost` branch of `prepareHost` (hostID already on disk): retry the
    lookup, and if `lastErr` is still set afterwards, fail startup with it.
    (The final fallback branch is unreachable: a cleared `lastErr` means some
    attempt succeeded, so the result is set.) -/
def prepareHostFind (oracle : Nat → Except ApiError Host) : Except String Host :=
  match (doRetry oracle).2.1 with
  | some e => .error ("Failed to find this host on mackerel: " ++ e.msg)
  | none =>
    match (doRetry oracle).2.2 with
    | some h => .ok h
    | none => .error "Failed to find this host on mackerel: "

/-! ## Run (the wrapper applying the on-stop host status) -/

/-- What `Run` did after `loop` returned: whether `UpdateHostStatus` was called
    with the on-stop status, and the error `Run` returns. -/
structure RunResult where
  updateHostStatusCalled : Bool
  returned : Option String
  deriving DecidableEq, Repr

/-- The tail of `Run` (command.go): apply the configured on-stop status only when
    `loop` returned without error, and return `loop`'s error unchanged. -/
def runWrapper (loopErr : Option String) (onStop : String) : RunResult :=
  if loopErr = none ∧ onStop ≠ "" then ⟨true, loopErr⟩ else ⟨false, loopErr⟩

/-! ## Spec-side comparison definition for the Default-state delay -/

/-- Modelled from the spec: "remaining seconds until this host's assigned offset
    within the base interval" — the wrap-around distance from the current
    position in the interval to the offset. -/
def remainingUntilOffset (interval offset now : Nat) : Nat :=
  (offset + interval - now % interval) % interval

/-! ## Invariant predicates -/

/-- Every sample in the list has a finite (not NaN, not infinite) value. -/
def allFiniteValues (l : List CreatingMetricsValue) : Prop :=
  ∀ v ∈ l, v.value.isNaN = false ∧ v.value.isInf = false

/-! ## Concrete fixtures used by witnesses and counterexamples -/

/-- A connection configuration with the agent's stock values. -/
def cfg0 : ConnectionConfig := ⟨30, 60, 10, 30⟩

def hostAbc : Host := ⟨"abc", "box1", "working"⟩

def b1 : postValue := ⟨[⟨"abc", "loadavg5", 100, .finite 1⟩], 0⟩
def b2 : postValue := ⟨[⟨"abc", "memory.used", 100, .finite 2⟩], 0⟩
def b3 : postValue := ⟨[⟨"abc", "cpu.user.percentage", 100, .finite 3⟩], 0⟩

/-- A batch whose retry counter is already high. -/
def bigRetry : postValue := ⟨[⟨"abc", "loadavg5", 160, .finite 4⟩], 5⟩

/-- A snapshot mixing one finite value with a NaN and an infinity. -/
def resultWithNaN : MetricsResult :=
  ⟨100, [⟨none, [("loadavg5", .finite 1), ("memory.used", .nan),
    ("cpu.user.percentage", .inf false)]⟩]⟩

def oracleClient : Nat → Except ApiError Host :=
  fun _ => .error (.client "API key invalid")

def oracleServer : Nat → Except ApiError Host :=
  fun _ => .error (.server "service unavailable")

/-! ## Claim theorems -/

/-- C6: `delayByHost` is a pure, deterministic function of the host identifier
    alone (two hosts with the same ID get the same delay, whatever their other
    fields), and the assigned delay lies in `[0, interval)` for the configured
    base post interval. -/
theorem delayByHost_pure_and_in_range :
    (∀ h₁ h₂ : Host, h₁.id = h₂.id → delayByHost h₁ = delayByHost h₂) ∧
    (∀ h : Host, delayByHost h < PostMetricsIntervalSeconds) := by
  constructor
  · intro h₁ h₂ hid
    unfold delayByHost
    rw [hid]
  · intro h
    exact Nat.mod_lt _ (by norm_num [PostMetricsIntervalSeconds])

set_option maxRecDepth 100000 in
/-- Witness for C6: a concrete host ID gives the same delay for two hosts that
    differ in every other field, and that delay is 37 < 60. -/
theorem delayByHost_pure_and_in_range_witness :
    (Host.mk "abc" "box1" "working").id = (Host.mk "abc" "box2" "standby").id ∧
    delayByHost ⟨"abc", "box1", "working"⟩ = delayByHost ⟨"abc", "box2", "standby"⟩ ∧
    delayByHost ⟨"abc", "box1", "working"⟩ = 37 ∧
    delayByHost ⟨"abc", "box1", "working"⟩ < PostMetricsIntervalSeconds := by
  refine ⟨rfl, delayByHost_pure_and_in_range.1 _ _ rfl, by decide,
    delayByHost_pure_and_in_range.2 ⟨"abc", "box1", "working"⟩⟩

/-- C9: before the first posting cycle the loop waits only half of the host's
    desync delay (integer division by two, hence at most half of the full
    delay); a termination signal during this wait makes the loop return nil,
    otherwise it proceeds to initialise the plugin generators. -/
theorem loop_initial_wait_half_delay (host : Host) :
    initialDelay host = delayByHost host / 2 ∧
    2 * initialDelay host ≤ delayByHost host ∧
    loopInitialWait true = .exitNil ∧
    loopInitialWait false = .proceedInit := by
  refine ⟨rfl, ?_, rfl, rfl⟩
  unfold initialDelay
  omega

/-- C10: `Run` applies the on-stop host status only when `loop` returned without
    error, and returns `loop`'s error unchanged; on the forced
    double-termination error the status update is skipped. -/
theorem run_on_stop_only_on_clean_exit (loopErr : Option String) (onStop : String) :
    ((runWrapper loopErr onStop).updateHostStatusCalled = true → loopErr = none) ∧
    (∀ e, loopErr = some e →
      (runWrapper loopErr onStop).updateHostStatusCalled = false ∧
      (runWrapper loopErr onStop).returned = some e) ∧
    (runWrapper loopErr onStop).returned = loopErr := by
  unfold runWrapper
  refine ⟨?_, ?_, ?_⟩
  · split <;> simp_all
  · intro e he
    split <;> simp_all
  · split <;> rfl

/-- Witness for C10: with the forced double-termination error, the on-stop
    status update is skipped and the error is returned unchanged. -/
theorem run_on_stop_only_on_clean_exit_witness :
    (runWrapper (some forcedReturnMsg) "poweroff").updateHostStatusCalled = false ∧
    (runWrapper (some forcedReturnMsg) "poweroff").returned = some forcedReturnMsg :=
  (run_on_stop_only_on_clean_exit (some forcedReturnMsg) "poweroff").2.1
    forcedReturnMsg rfl

/-- C5: a successful checker invocation withholds the report iff its status is
    OK, equals the remembered status and its message equals the remembered
    message; and it signals immediate escalation iff the status changed, except
    for the Undefined-to-OK transition. -/
theorem checkerStep_suppress_and_escalate (ls : CheckStatus) (lm : String)
    (r : CheckReport) :
    ((checkerStep ls lm r).forwarded = false ↔
      (r.status = .ok ∧ r.status = ls ∧ r.message = lm)) ∧
    ((checkerStep ls lm r).immediate = true ↔
      (r.status ≠ ls ∧ ¬(ls = .undefined ∧ r.status = .ok))) := by
  unfold checkerStep
  by_cases hc : r.status = .ok ∧ r.status = ls ∧ r.message = lm
  · obtain ⟨h1, h2, h3⟩ := hc
    subst h2
    subst h3
    simp [h1]
  · simp only [if_neg hc]
    constructor
    · simp [hc]
    · simp only [decide_eq_true_eq]
      tauto

/-! ## Helper lemmas on the scheduler step -/

theorem requeueOrAbandon_eq (retryMax : Nat) (orig : List postValue) :
    requeueOrAbandon retryMax orig =
      ((orig.map bumpRetry).filter (fun v => decide (v.retryCnt ≤ retryMax)),
       (orig.map bumpRetry).filter (fun v => decide (retryMax < v.retryCnt))) := by
  induction orig with
  | nil => rfl
  | cons v rest ih =>
    simp only [requeueOrAbandon, List.map_cons, List.filter_cons, ih]
    by_cases h : retryMax < (bumpRetry v).retryCnt
    · simp [h, Nat.not_le.mpr h]
    · simp [h, Nat.not_lt.mp h]

theorem mem_requeue_values {retryMax : Nat} {orig : List postValue} {b : postValue}
    (h : b ∈ (requeueOrAbandon retryMax orig).1) : ∃ a ∈ orig, b.values = a.values := by
  rw [requeueOrAbandon_eq] at h
  simp only [List.mem_filter, List.mem_map] at h
  obtain ⟨⟨a, ha, rfl⟩, -⟩ := h
  exact ⟨a, ha, rfl⟩

theorem dequeueUpToTwo_append (q : List postValue) :
    (dequeueUpToTwo q).1 ++ (dequeueUpToTwo q).2 = q := by
  match q with
  | [] => rfl
  | [v] => rfl
  | v :: w :: rest => rfl

theorem mem_dequeueUpToTwo_fst {q : List postValue} {b : postValue}
    (h : b ∈ (dequeueUpToTwo q).1) : b ∈ q := by
  rw [← dequeueUpToTwo_append q]
  exact List.mem_append_left _ h

theorem mem_dequeueUpToTwo_snd {q : List postValue} {b : postValue}
    (h : b ∈ (dequeueUpToTwo q).2) : b ∈ q := by
  rw [← dequeueUpToTwo_append q]
  exact List.mem_append_right _ h

theorem dequeueUpToTwo_fst_length (q : List postValue) (h : q ≠ []) :
    (dequeueUpToTwo q).1.length = min 2 q.length := by
  match q with
  | [] => exact absurd rfl h
  | [v] => rfl
  | v :: w :: rest =>
    simp only [dequeueUpToTwo, List.length_cons, List.length_nil]
    omega

theorem foldl_append_values (l : List postValue) (acc : List CreatingMetricsValue) :
    l.foldl (fun acc v => acc ++ v.values) acc = acc ++ (l.map postValue.values).flatten := by
  induction l generalizing acc with
  | nil => simp
  | cons v rest ih => simp [ih, List.append_assoc]

/-! ## Scheduler claim theorems -/

/-- C1: on a failed delivery, every merged batch's retry counter is incremented
    by exactly one; the batch is abandoned iff the incremented counter exceeds
    the configured maximum, and requeued otherwise; and the failing scheduler
    step puts exactly the requeued batches back at the end of the post-queue
    while reporting exactly the over-limit ones as abandoned. -/
theorem retry_count_increment_and_abandon (retryMax : Nat) (orig : List postValue) :
    (∀ v ∈ orig, (bumpRetry v).retryCnt = v.retryCnt + 1) ∧
    (requeueOrAbandon retryMax orig).1 =
      (orig.map bumpRetry).filter (fun v => decide (v.retryCnt ≤ retryMax)) ∧
    (requeueOrAbandon retryMax orig).2 =
      (orig.map bumpRetry).filter (fun v => decide (retryMax < v.retryCnt)) ∧
    (∀ v ∈ orig, (bumpRetry v ∈ (requeueOrAbandon retryMax orig).2 ↔
      retryMax < v.retryCnt + 1)) ∧
    (∀ v ∈ orig, (bumpRetry v ∈ (requeueOrAbandon retryMax orig).1 ↔
      ¬retryMax < v.retryCnt + 1)) ∧
    (∀ cfg pds st now (v : postValue) rest, cfg.postMetricsRetryMax = retryMax →
      (loopStep cfg pds st (v :: rest) (.batch false now false)).abandoned =
        (requeueOrAbandon retryMax (dequeueUpToTwo (v :: rest)).1).2 ∧
      (loopStep cfg pds st (v :: rest) (.batch false now false)).out.queueOf =
        (dequeueUpToTwo (v :: rest)).2 ++
          (requeueOrAbandon retryMax (dequeueUpToTwo (v :: rest)).1).1) := by
  refine ⟨fun v _ => rfl, by rw [requeueOrAbandon_eq], by rw [requeueOrAbandon_eq],
    ?_, ?_, ?_⟩
  · intro v hv
    rw [requeueOrAbandon_eq]
    simp only [List.mem_filter, List.mem_map, decide_eq_true_eq, bumpRetry]
    constructor
    · rintro ⟨-, hlt⟩
      omega
    · intro hlt
      exact ⟨⟨v, hv, rfl⟩, by omega⟩
  · intro v hv
    rw [requeueOrAbandon_eq]
    simp only [List.mem_filter, List.mem_map, decide_eq_true_eq, bumpRetry]
    constructor
    · rintro ⟨-, hle⟩
      omega
    · intro hlt
      exact ⟨⟨v, hv, rfl⟩, by omega⟩
  · intro cfg pds st now v rest hmax
    subst hmax
    simp [loopStep, StepOut.queueOf]

/-- Witness for C1: with maximum 2, a batch at retry count 5 is bumped to 6 and
    abandoned, while a fresh batch is bumped to 1 and requeued. -/
theorem retry_count_increment_and_abandon_witness :
    (bumpRetry bigRetry).retryCnt = 6 ∧
    (bumpRetry bigRetry ∈ (requeueOrAbandon 2 [b1, bigRetry]).2 ↔
      2 < bigRetry.retryCnt + 1) ∧
    (bumpRetry b1 ∈ (requeueOrAbandon 2 [b1, bigRetry]).1 ↔ ¬2 < b1.retryCnt + 1) := by
  have h := retry_count_increment_and_abandon 2 [b1, bigRetry]
  exact ⟨h.1 bigRetry (by simp), h.2.2.2.1 bigRetry (by simp), h.2.2.2.2.1 b1 (by simp)⟩

/-- C2: each cycle dequeues exactly one batch plus exactly one more iff the
    queue is still non-empty — the merge never exceeds two batches however long
    the backlog — and the samples handed to the post call are exactly those of
    the merged batches. -/
theorem scheduler_merges_at_most_two (q : List postValue) (h : q ≠ []) :
    (dequeueUpToTwo q).1.length = min 2 q.length ∧
    (dequeueUpToTwo q).1 ++ (dequeueUpToTwo q).2 = q ∧
    (dequeueUpToTwo q).1.length ≤ 2 ∧
    (∀ cfg pds st now postOk,
      (loopStep cfg pds st q (.batch false now postOk)).posted =
        ((dequeueUpToTwo q).1.map postValue.values).flatten) := by
  refine ⟨dequeueUpToTwo_fst_length q h, dequeueUpToTwo_append q, ?_, ?_⟩
  · rw [dequeueUpToTwo_fst_length q h]
    omega
  · intro cfg pds st now postOk
    match q with
    | [] => exact absurd rfl h
    | v :: rest =>
      simp only [loopStep, Bool.false_eq_true, false_and, if_false,
        foldl_append_values, List.nil_append]
      split
      · split <;> rfl
      · rfl

/-- Witness for C2: from a three-batch backlog exactly two batches are merged
    and the third is left queued. -/
theorem scheduler_merges_at_most_two_witness :
    (dequeueUpToTwo [b1, b2, b3]).1.length = 2 ∧
    (dequeueUpToTwo [b1, b2, b3]).1 ++ (dequeueUpToTwo [b1, b2, b3]).2 = [b1, b2, b3] := by
  have h := scheduler_merges_at_most_two [b1, b2, b3] (by simp)
  exact ⟨by simpa using h.1, h.2.1⟩

/-- C3: a termination signal received while the state is already Terminating —
    at the top of the cycle or during the pre-send wait — makes the loop return
    the forced-exit error, which is distinct from the nil result of a normal
    drain. -/
theorem scheduler_double_term_forces_error (cfg : ConnectionConfig) (pds now : Nat)
    (q : List postValue) (postOk : Bool) :
    (loopStep cfg pds .terminating q .term).out = .ret (some forcedReturnMsg) ∧
    (q ≠ [] → (loopStep cfg pds .terminating q (.batch true now postOk)).out =
      .ret (some forcedReturnMsg)) ∧
    some forcedReturnMsg ≠ (none : Option String) := by
  refine ⟨by simp [loopStep], ?_, by simp⟩
  intro hq
  match q with
  | [] => exact absurd rfl hq
  | v :: rest => simp [loopStep, decideNextState]

/-- Witness for C3: a second termination signal during the pre-send wait of a
    terminating cycle with one queued batch returns the forced-exit error. -/
theorem scheduler_double_term_forces_error_witness :
    (loopStep cfg0 37 .terminating [b1] (.batch true 0 true)).out =
      .ret (some forcedReturnMsg) :=
  (scheduler_double_term_forces_error cfg0 37 0 [b1] true).2.1 (by simp)

set_option maxRecDepth 100000 in
/-- C4 fails as stated: for host "abc" (assigned offset 37) at a wall-clock
    position 50 seconds into the base interval, the Default-state delay is 0,
    while the remaining seconds until the host's assigned offset are 47. -/
theorem default_delay_counterexample :
    stateDelay cfg0 (delayByHost hostAbc) 50 .default = 0 ∧
    remainingUntilOffset PostMetricsIntervalSeconds (delayByHost hostAbc) 50 = 47 ∧
    (47 : Nat) ≠ 0 := by
  exact ⟨by decide, by decide, by decide⟩

/-- C4 (amended): in the Default state the delay equals the remaining seconds
    until the host's assigned offset when the offset has not yet passed within
    the current interval; once it has passed, the delay is 0 (post immediately)
    rather than the wrap-around remainder into the next interval. -/
theorem default_delay_amended (cfg : ConnectionConfig) (offset now : Nat)
    (h : offset < PostMetricsIntervalSeconds) :
    (now % PostMetricsIntervalSeconds ≤ offset →
      stateDelay cfg offset now .default =
        remainingUntilOffset PostMetricsIntervalSeconds offset now) ∧
    (offset < now % PostMetricsIntervalSeconds →
      stateDelay cfg offset now .default = 0) := by
  simp only [stateDelay, remainingUntilOffset, PostMetricsIntervalSeconds] at *
  constructor <;> intro h2 <;> split <;> omega

/-- Witness for C4 (amended): at 20 seconds into the interval with offset 37,
    the delay is the remaining 17 seconds until the offset. -/
theorem default_delay_amended_witness :
    stateDelay cfg0 37 20 .default =
      remainingUntilOffset PostMetricsIntervalSeconds 37 20 ∧
    stateDelay cfg0 37 20 .default = 17 :=
  ⟨(default_delay_amended cfg0 37 20 (by decide)).1 (by decide), by decide⟩

/-! ## Finiteness of ingested and delivered samples -/

theorem buildCreatingValues_finite (primaryID : String)
    (customIdentifierHosts : List (String × Host)) (result : MetricsResult) :
    allFiniteValues (buildCreatingValues primaryID customIdentifierHosts result) := by
  intro x hx
  simp only [buildCreatingValues, List.mem_flatten, List.mem_map] at hx
  obtain ⟨l, ⟨mv, hmv, rfl⟩, hxl⟩ := hx
  cases hres : resolveHostID primaryID customIdentifierHosts mv.customIdentifier with
  | none => simp [hres] at hxl
  | some hostID =>
    simp only [hres, List.mem_map, List.mem_filter] at hxl
    obtain ⟨nv, ⟨hnv, hpred⟩, rfl⟩ := hxl
    simp only [Bool.and_eq_true, Bool.not_eq_true'] at hpred
    exact ⟨hpred.1, hpred.2⟩

theorem loopStep_preserves_finite (cfg : ConnectionConfig) (pds : Nat) (st : loopState)
    (q : List postValue) (ev : CycleEvent)
    (hq : ∀ b ∈ q, allFiniteValues b.values) :
    allFiniteValues (loopStep cfg pds st q ev).posted ∧
    ∀ b ∈ (loopStep cfg pds st q ev).out.queueOf, allFiniteValues b.values := by
  cases ev with
  | term =>
    simp only [loopStep]
    split
    · exact ⟨by simp [allFiniteValues], by simp [StepOut.queueOf]⟩
    · split
      · exact ⟨by simp [allFiniteValues], by simp [StepOut.queueOf]⟩
      · exact ⟨by simp [allFiniteValues], by simpa [StepOut.queueOf] using hq⟩
  | batch tds now postOk =>
    match q with
    | [] =>
      exact ⟨by simp [loopStep, allFiniteValues], by simp [loopStep, StepOut.queueOf]⟩
    | v :: rest =>
      have horig : ∀ b ∈ (dequeueUpToTwo (v :: rest)).1, allFiniteValues b.values :=
        fun b hb => hq b (mem_dequeueUpToTwo_fst hb)
      have hqueue1 : ∀ b ∈ (dequeueUpToTwo (v :: rest)).2, allFiniteValues b.values :=
        fun b hb => hq b (mem_dequeueUpToTwo_snd hb)
      have hposted : allFiniteValues
          ((dequeueUpToTwo (v :: rest)).1.foldl (fun acc v => acc ++ v.values) []) := by
        rw [foldl_append_values]
        intro x hx
        simp only [List.nil_append, List.mem_flatten, List.mem_map] at hx
        obtain ⟨l, ⟨b, hb, rfl⟩, hxl⟩ := hx
        exact horig b hb x hxl
      have hrq : ∀ b ∈
          (requeueOrAbandon cfg.postMetricsRetryMax (dequeueUpToTwo (v :: rest)).1).1,
          allFiniteValues b.values := by
        intro b hb
        obtain ⟨a, ha, hval⟩ := mem_requeue_values hb
        rw [hval]
        exact horig a ha
      simp only [loopStep]
      repeat' split
      all_goals refine ⟨?_, ?_⟩
      all_goals first
        | (simp [allFiniteValues]; done)
        | exact hposted
        | (simp [StepOut.queueOf]; done)
        | (simpa [StepOut.queueOf] using hqueue1)
        | (intro b hb
           simp only [StepOut.queueOf, List.mem_append] at hb
           rcases hb with hb | hb
           · exact hqueue1 b hb
           · exact hrq b hb)

/-- C7: every sample the ingestion step builds has a finite value (NaN and
    infinite values are dropped and never enter a batch), and the scheduler step
    keeps an all-finite queue all-finite, so delivered batches never contain a
    non-finite sample. -/
theorem nonfinite_values_never_delivered (primaryID : String)
    (customIdentifierHosts : List (String × Host)) (result : MetricsResult)
    (cfg : ConnectionConfig) (pds : Nat) (st : loopState) (q : List postValue)
    (ev : CycleEvent) (hq : ∀ b ∈ q, allFiniteValues b.values) :
    allFiniteValues (buildCreatingValues primaryID customIdentifierHosts result) ∧
    allFiniteValues
      (newPostValue (buildCreatingValues primaryID customIdentifierHosts result)).values ∧
    allFiniteValues (loopStep cfg pds st q ev).posted ∧
    (∀ b ∈ (loopStep cfg pds st q ev).out.queueOf, allFiniteValues b.values) := by
  obtain ⟨h1, h2⟩ := loopStep_preserves_finite cfg pds st q ev hq
  exact ⟨buildCreatingValues_finite primaryID customIdentifierHosts result,
    buildCreatingValues_finite primaryID customIdentifierHosts result, h1, h2⟩

/-- Witness for C7: a snapshot with a NaN and an infinity yields a batch holding
    only the finite sample, and a concrete failing delivery step keeps
    everything finite. -/
theorem nonfinite_values_never_delivered_witness :
    allFiniteValues (buildCreatingValues "abc" [] resultWithNaN) ∧
    allFiniteValues (loopStep cfg0 37 .default [b1] (.batch false 0 false)).posted ∧
    buildCreatingValues "abc" [] resultWithNaN =
      [⟨"abc", "loadavg5", 100, .finite 1⟩] := by
  have h := nonfinite_values_never_delivered "abc" [] resultWithNaN cfg0 37 .default [b1]
    (.batch false 0 false) (by unfold allFiniteValues; decide)
  exact ⟨h.1, h.2.2.1, by decide⟩

/-! ## Startup retry policy -/

theorem doRetryFrom_all_server (oracle : Nat → Except ApiError Host)
    (msgs : Nat → String) :
    ∀ fuel i le res, 1 ≤ fuel →
      (∀ j, i ≤ j → j < i + fuel → oracle j = .error (.server (msgs j))) →
      doRetryFrom oracle fuel i le res =
        (i + fuel, some (ApiError.server (msgs (i + fuel - 1))), none) := by
  intro fuel
  induction fuel with
  | zero => intro i le res h1 _; omega
  | succ n ih =>
    intro i le res h1 h2
    have ho : oracle i = .error (.server (msgs i)) := h2 i (le_refl i) (by omega)
    by_cases hn : n = 0
    · subst hn
      simp [doRetryFrom, ho, filterErrorForRetry, ApiError.isClientError]
    · have hrec := ih (i + 1) (some (.server (msgs i))) none (by omega)
        (fun j hj1 hj2 => h2 j (by omega) (by omega))
      simp only [doRetryFrom, ho, filterErrorForRetry, ApiError.isClientError,
        Bool.false_eq_true, if_false]
      rw [hrec]
      have e1 : i + 1 + n = i + (n + 1) := by omega
      rw [e1]

/-- C8: a first-attempt client error stops the startup retry immediately (one
    attempt, `lastErr` kept) and fails `prepareHost`; persistent server errors
    are retried for the whole fixed attempt count and then fail `prepareHost`;
    and whenever the retried call never cleared `lastErr`, `prepareHost` returns
    that last error as a fatal startup error. -/
theorem prepareHost_retry_policy (oracle : Nat → Except ApiError Host) :
    (∀ m, oracle 0 = .error (.client m) →
      doRetry oracle = (1, some (.client m), none) ∧
      prepareHostFind oracle = .error ("Failed to find this host on mackerel: " ++ m)) ∧
    (∀ msgs : Nat → String, (∀ i, i < retryNum → oracle i = .error (.server (msgs i))) →
      (doRetry oracle).1 = retryNum ∧
      (doRetry oracle).2.1 = some (.server (msgs (retryNum - 1))) ∧
      prepareHostFind oracle =
        .error ("Failed to find this host on mackerel: " ++ msgs (retryNum - 1))) ∧
    (∀ e, (doRetry oracle).2.1 = some e →
      prepareHostFind oracle =
        .error ("Failed to find this host on mackerel: " ++ e.msg)) := by
  refine ⟨?_, ?_, ?_⟩
  · intro m h0
    have hdo : doRetry oracle = (1, some (.client m), none) := by
      simp [doRetry, retryNum, doRetryFrom, h0, filterErrorForRetry, ApiError.isClientError]
    exact ⟨hdo, by simp [prepareHostFind, hdo, ApiError.msg]⟩
  · intro msgs hsv
    have hdo : doRetry oracle =
        (retryNum, some (.server (msgs (retryNum - 1))), none) := by
      have := doRetryFrom_all_server oracle msgs retryNum 0 none none
        (by norm_num [retryNum]) (fun j hj1 hj2 => hsv j (by omega))
      simpa [doRetry] using this
    refine ⟨by rw [hdo], by rw [hdo], ?_⟩
    simp [prepareHostFind, hdo, ApiError.msg]
  · intro e he
    simp [prepareHostFind, he]

/-- Witness for C8: a constant client-error oracle makes exactly one attempt and
    fails startup; a constant server-error oracle is retried the full 20 times. -/
theorem prepareHost_retry_policy_witness :
    doRetry oracleClient = (1, some (.client "API key invalid"), none) ∧
    prepareHostFind oracleClient =
      .error "Failed to find this host on mackerel: API key invalid" ∧
    (doRetry oracleServer).1 = retryNum ∧
    prepareHostFind oracleServer =
      .error "Failed to find this host on mackerel: service unavailable" := by
  have hc := (prepareHost_retry_policy oracleClient).1 "API key invalid" rfl
  have hs := (prepareHost_retry_policy oracleServer).2.1
    (fun _ => "service unavailable") (fun _ _ => rfl)
  exact ⟨hc.1, hc.2, hs.1, hs.2.2⟩

end MackerelAgent
